import Mathlib

/-! Verification of `GeneratedAssetSymbols.h`.

A verification development for the generated asset-symbol header of the
InputSwitcher target
(`build/InputSwitcher.build/Release/InputSwitcher.build/DerivedSources/GeneratedAssetSymbols.h`).

The header is embedded twice, and the two embeddings are tied together:

* `headerText` is the text of the header, character for character;
* `header` is its structure, one `Item` per line group, and `render header`
  is shown to reproduce `headerText`.

The three constants of the header keep their names: `ACBundleID`,
`ACColorNameColor`, `ACImageNameImage`.
-/

namespace GeneratedAssetSymbols

/-! ## The three constants -/

/-- The resource bundle ID: `static NSString * const ACBundleID`. -/
def ACBundleID : String := "online.wangww.InputSwitcher"

/-- The "Color" asset catalog color resource: `static NSString * const ACColorNameColor`. -/
def ACColorNameColor : String := "Color"

/-- The "Image" asset catalog image resource: `static NSString * const ACImageNameImage`. -/
def ACImageNameImage : String := "Image"

/-! ## The header as data -/

/-- A constant declaration of the header, with the `///` comment above it:
`/// doc` then `static NSString * const symbol attr = @"value";`.
The storage class, the pointee class and the `const` on the pointer are
kept as fields, as they are written on the line. -/
structure ConstDecl where
  doc : String
  isStatic : Bool
  pointee : String
  isConst : Bool
  symbol : String
  attr : String
  value : String
  deriving DecidableEq, Repr

/-- A top-level item of the header. `defineIfAttr m a` is the five-line group
`#if __has_attribute(a)` / `#define m __attribute__((a))` / `#else` /
`#define m` / `#endif`. -/
inductive Item where
  | importHeader (path : String)
  | blank
  | defineIfAttr (macroName attrName : String)
  | constant (d : ConstDecl)
  | undefine (macroName : String)
  deriving DecidableEq, Repr

/-- The declaration of `ACBundleID` (lines 9-10). -/
def declBundleID : ConstDecl :=
  { doc := "The resource bundle ID."
    isStatic := true
    pointee := "NSString"
    isConst := true
    symbol := "ACBundleID"
    attr := "AC_SWIFT_PRIVATE"
    value := ACBundleID }

/-- The declaration of `ACColorNameColor` (lines 12-13). -/
def declColorNameColor : ConstDecl :=
  { doc := "The \"Color\" asset catalog color resource."
    isStatic := true
    pointee := "NSString"
    isConst := true
    symbol := "ACColorNameColor"
    attr := "AC_SWIFT_PRIVATE"
    value := ACColorNameColor }

/-- The declaration of `ACImageNameImage` (lines 15-16). -/
def declImageNameImage : ConstDecl :=
  { doc := "The \"Image\" asset catalog image resource."
    isStatic := true
    pointee := "NSString"
    isConst := true
    symbol := "ACImageNameImage"
    attr := "AC_SWIFT_PRIVATE"
    value := ACImageNameImage }

/-- The header, item by item, in file order. -/
def header : List Item :=
  [ .importHeader "Foundation/Foundation.h",
    .blank,
    .defineIfAttr "AC_SWIFT_PRIVATE" "swift_private",
    .blank,
    .constant declBundleID,
    .blank,
    .constant declColorNameColor,
    .blank,
    .constant declImageNameImage,
    .blank,
    .undefine "AC_SWIFT_PRIVATE" ]

/-- The text of the header, character for character (no newline after the
last line). -/
def headerText : String :=
  "#import <Foundation/Foundation.h>\n" ++
  "\n" ++
  "#if __has_attribute(swift_private)\n" ++
  "#define AC_SWIFT_PRIVATE __attribute__((swift_private))\n" ++
  "#else\n" ++
  "#define AC_SWIFT_PRIVATE\n" ++
  "#endif\n" ++
  "\n" ++
  "/// The resource bundle ID.\n" ++
  "static NSString * const ACBundleID AC_SWIFT_PRIVATE = @\"online.wangww.InputSwitcher\";\n" ++
  "\n" ++
  "/// The \"Color\" asset catalog color resource.\n" ++
  "static NSString * const ACColorNameColor AC_SWIFT_PRIVATE = @\"Color\";\n" ++
  "\n" ++
  "/// The \"Image\" asset catalog image resource.\n" ++
  "static NSString * const ACImageNameImage AC_SWIFT_PRIVATE = @\"Image\";\n" ++
  "\n" ++
  "#undef AC_SWIFT_PRIVATE"

/-- The declaration line of a constant, without its comment. -/
def renderDecl (d : ConstDecl) : String :=
  (if d.isStatic then "static " else "") ++ d.pointee ++ " * " ++
  (if d.isConst then "const " else "") ++ d.symbol ++ " " ++ d.attr ++
  " = @\"" ++ d.value ++ "\";"

/-- The lines an item occupies in the file. -/
def renderItem : Item → List String
  | .importHeader p => ["#import <" ++ p ++ ">"]
  | .blank => [""]
  | .defineIfAttr m a =>
      [ "#if __has_attribute(" ++ a ++ ")",
        "#define " ++ m ++ " __attribute__((" ++ a ++ "))",
        "#else",
        "#define " ++ m,
        "#endif" ]
  | .constant d => ["/// " ++ d.doc, renderDecl d]
  | .undefine m => ["#undef " ++ m]

/-- The file text of a list of items: their lines, joined by newlines. -/
def render (items : List Item) : String :=
  "\n".intercalate (items.flatMap renderItem)

/-! ## Reading the header text back -/

/-- Split a text at its newlines (a text with `n` newlines has `n + 1` lines). -/
def splitLines : List Char → List Char → List (List Char)
  | [], acc => [acc.reverse]
  | c :: cs, acc =>
      if c = '\n' then acc.reverse :: splitLines cs [] else splitLines cs (c :: acc)

/-- Remove the leading characters `p` from `l`, if `l` starts with them. -/
def dropHead : List Char → List Char → Option (List Char)
  | [], l => some l
  | _ :: _, [] => none
  | p :: ps, c :: cs => if p = c then dropHead ps cs else none

/-- Remove the trailing characters `p` from `l`, if `l` ends with them. -/
def dropTail (p l : List Char) : Option (List Char) :=
  (dropHead p.reverse l.reverse).map List.reverse

/-- Remove an optional leading keyword, reporting whether it was there. -/
def optKeyword (kw l : List Char) : Bool × List Char :=
  match dropHead kw l with
  | some r => (true, r)
  | none => (false, l)

/-- Read a declaration line
`[static ]Class * [const ]symbol attr = @"value";` under the comment `doc`. -/
def parseDecl (doc line : List Char) : Option ConstDecl :=
  let (isStatic, r1) := optKeyword "static ".data line
  let (pointee, r2) := r1.span (fun c => c != ' ')
  (dropHead " * ".data r2).bind fun r3 =>
  let (isConst, r4) := optKeyword "const ".data r3
  let (symbol, r5) := r4.span (fun c => c != ' ')
  (dropHead " ".data r5).bind fun r6 =>
  let (attr, r7) := r6.span (fun c => c != ' ')
  (dropHead " = @\"".data r7).bind fun r8 =>
  (dropTail "\";".data r8).map fun value =>
  { doc := String.mk doc
    isStatic := isStatic
    pointee := String.mk pointee
    isConst := isConst
    symbol := String.mk symbol
    attr := String.mk attr
    value := String.mk value }

/-- Read the `#if __has_attribute(a)` group from its five lines. -/
def parseDefineIfAttr (l1 l2 l3 l4 l5 : List Char) : Option Item :=
  ((dropHead "#if __has_attribute(".data l1).bind (dropTail ")".data)).bind fun a =>
  (dropHead "#define ".data l4).bind fun m =>
  if l2 = "#define ".data ++ m ++ " __attribute__((".data ++ a ++ "))".data
      ∧ l3 = "#else".data ∧ l5 = "#endif".data
  then some (.defineIfAttr (String.mk m) (String.mk a)) else none

/-- Read the item at the head of the lines, with the number of lines it
occupies; `none` when the head line is not of one of the five forms. -/
def parseItem : List (List Char) → Option (Item × Nat)
  | [] => none
  | l :: rest =>
      if l = [] then some (.blank, 1)
      else match (dropHead "#import <".data l).bind (dropTail ">".data) with
      | some p => some (.importHeader (String.mk p), 1)
      | none =>
      match dropHead "#undef ".data l with
      | some m => some (.undefine (String.mk m), 1)
      | none =>
      match dropHead "/// ".data l, rest with
      | some doc, dl :: _ => (parseDecl doc dl).map fun d => (.constant d, 2)
      | _, _ =>
      match rest with
      | l2 :: l3 :: l4 :: l5 :: _ => (parseDefineIfAttr l l2 l3 l4 l5).map fun i => (i, 5)
      | _ => none

/-- Read the items of the lines, at most `fuel` of them. -/
def parseLines : Nat → List (List Char) → Option (List Item)
  | _, [] => some []
  | 0, _ :: _ => none
  | fuel + 1, l :: rest =>
      (parseItem (l :: rest)).bind fun (i, k) =>
        (parseLines fuel ((l :: rest).drop k)).map (i :: ·)

/-- Read a header text: every item takes a line or more, so the number of
lines is fuel enough. -/
def parse (text : String) : Option (List Item) :=
  let lines := splitLines text.data []
  parseLines lines.length lines

/-! ## The table of constants and what the header leaves declared -/

/-- The constant declarations among the items, in file order. -/
def constants : List Item → List ConstDecl
  | [] => []
  | .constant d :: rest => d :: constants rest
  | _ :: rest => constants rest

/-- The macros defined once the items are read, starting from the macros
`ms`: a `#define` adds its macro, an `#undef` removes it. -/
def macrosAfter : List String → List Item → List String
  | ms, [] => ms
  | ms, .defineIfAttr m _ :: rest => macrosAfter (m :: ms.filter (fun x => x != m)) rest
  | ms, .undefine m :: rest => macrosAfter (ms.filter (fun x => x != m)) rest
  | ms, _ :: rest => macrosAfter ms rest

/-- The names a file that includes the header gets from the header itself:
its constants, and the macros it leaves defined. -/
def surface (items : List Item) : List String :=
  (constants items).map (fun d => d.symbol) ++ macrosAfter [] items

/-- Lookup by symbol: the value of the constant declared under `sym`. -/
def lookup (items : List Item) (sym : String) : Option String :=
  ((constants items).find? (fun d => d.symbol == sym)).map (fun d => d.value)

/-- What a constant names. -/
inductive ResourceKind where
  | bundleID
  | colorName
  | imageName
  deriving DecidableEq, Repr

/-- The leading part of the symbol of a constant of each kind. -/
def ResourceKind.symbolHead : ResourceKind → String
  | .bundleID => "ACBundleID"
  | .colorName => "ACColorName"
  | .imageName => "ACImageName"

/-- The kind of a constant, read off its symbol: `ACBundleID` itself, or a
symbol that starts with `ACColorName` or with `ACImageName`. -/
def kindOf (symbol : String) : Option ResourceKind :=
  if symbol = ResourceKind.bundleID.symbolHead then some .bundleID
  else if ResourceKind.colorName.symbolHead.data.isPrefixOf symbol.data then some .colorName
  else if ResourceKind.imageName.symbolHead.data.isPrefixOf symbol.data then some .imageName
  else none

/-- The number of constants of a kind among the items. -/
def countKind (items : List Item) (k : ResourceKind) : Nat :=
  ((constants items).filter (fun d => kindOf d.symbol == some k)).length

/-- The names written between double quotes in a comment; `inside` tells
whether an opening quote has been read, `acc` holds the name read so far. -/
def quotedNamesAux : List Char → Bool → List Char → List String
  | [], _, _ => []
  | c :: cs, false, _ =>
      if c = '"' then quotedNamesAux cs true [] else quotedNamesAux cs false []
  | c :: cs, true, acc =>
      if c = '"' then String.mk acc.reverse :: quotedNamesAux cs false []
      else quotedNamesAux cs true (c :: acc)

/-- The names quoted in a doc comment. -/
def quotedNames (doc : String) : List String :=
  quotedNamesAux doc.data false []

/-! ## Attempts to change a constant

The header has no function and no state of its own. What a file that
includes it could try is to assign to one of the names, or to change the
string a name points to. Whether the compiler takes such a statement is
decided by the declaration line: the `const` after the `*` forbids the
assignment, and the class `NSString` has no method that changes the string
(`setString:` is a method of `NSMutableString`). -/

/-- An attempt to change a constant: `rebind s v` is the assignment
`s = @"v";`, `mutate s v` is the message `[s setString:@"v"];`. -/
inductive Write where
  | rebind (symbol newValue : String)
  | mutate (symbol newValue : String)
  deriving DecidableEq, Repr

/-- The name an attempt is aimed at. -/
def Write.target : Write → String
  | .rebind s _ => s
  | .mutate s _ => s

/-- The value an attempt would store. -/
def Write.stored : Write → String
  | .rebind _ v => v
  | .mutate _ v => v

/-- Whether the declaration `d` lets the attempt `w` through. -/
def permits (d : ConstDecl) : Write → Bool
  | .rebind s _ => d.symbol == s && !d.isConst
  | .mutate s _ => d.symbol == s && d.pointee == "NSMutableString"

/-- Whether some declaration of the items lets the attempt through. -/
def accepts (items : List Item) (w : Write) : Bool :=
  (constants items).any (fun d => permits d w)

/-- Store `v` as the value of the constant declared under `sym`. -/
def setValue (sym v : String) : List Item → List Item
  | [] => []
  | .constant d :: rest =>
      (if d.symbol == sym then Item.constant { d with value := v } else Item.constant d)
        :: setValue sym v rest
  | i :: rest => i :: setValue sym v rest

/-- One attempt: it takes effect when accepted and is without effect
otherwise. -/
def step (items : List Item) (w : Write) : List Item :=
  if accepts items w then setValue w.target w.stored items else items

/-- A sequence of attempts, one after the other. -/
def run (items : List Item) (ws : List Write) : List Item :=
  ws.foldl step items

/-! ## Regeneration from the asset catalog -/

/-- Modelled from the spec: the asset catalog manifest the header is
generated from, which is not among the sources: "a bundle identifier, one
color resource name, one image resource name". -/
structure Catalog where
  bundleID : String
  colorName : String
  imageName : String
  deriving DecidableEq, Repr

/-- Modelled from the spec: the declaration the generator writes for the
bundle identifier; the generator is not among the sources, and the shape is
that of the declaration of `ACBundleID`. -/
def generateBundleID (bundleID : String) : ConstDecl :=
  { doc := "The resource bundle ID."
    isStatic := true
    pointee := "NSString"
    isConst := true
    symbol := ResourceKind.bundleID.symbolHead
    attr := "AC_SWIFT_PRIVATE"
    value := bundleID }

/-- Modelled from the spec: the declaration the generator writes for a color
named `name`; the generator is not among the sources, and the shape is that
of the declaration of `ACColorNameColor`: `ACColorName` then the name as
symbol, the name as value, the name quoted in the comment. -/
def generateColorName (name : String) : ConstDecl :=
  { doc := "The \"" ++ name ++ "\" asset catalog color resource."
    isStatic := true
    pointee := "NSString"
    isConst := true
    symbol := ResourceKind.colorName.symbolHead ++ name
    attr := "AC_SWIFT_PRIVATE"
    value := name }

/-- Modelled from the spec: the declaration the generator writes for an
image named `name`; the generator is not among the sources, and the shape is
that of the declaration of `ACImageNameImage`. -/
def generateImageName (name : String) : ConstDecl :=
  { doc := "The \"" ++ name ++ "\" asset catalog image resource."
    isStatic := true
    pointee := "NSString"
    isConst := true
    symbol := ResourceKind.imageName.symbolHead ++ name
    attr := "AC_SWIFT_PRIVATE"
    value := name }

/-- Modelled from the spec: the generator of the header, which is the asset
compiler of the build and is not among the sources: "a static table of named
string constants, generated deterministically from a declarative asset
catalog manifest". The output has the layout of the header: the import, the
macro, the three declarations in the order bundle, color, image, and the
`#undef`. -/
def generate (c : Catalog) : List Item :=
  [ .importHeader "Foundation/Foundation.h",
    .blank,
    .defineIfAttr "AC_SWIFT_PRIVATE" "swift_private",
    .blank,
    .constant (generateBundleID c.bundleID),
    .blank,
    .constant (generateColorName c.colorName),
    .blank,
    .constant (generateImageName c.imageName),
    .blank,
    .undefine "AC_SWIFT_PRIVATE" ]

/-- Modelled from the spec: the catalog of the build that produced the
header, read off the header. -/
def catalog : Catalog :=
  { bundleID := "online.wangww.InputSwitcher", colorName := "Color", imageName := "Image" }

/-- Rename the color of a catalog. -/
def renameColor (c : Catalog) (name : String) : Catalog :=
  { c with colorName := name }

/-- Rename the image of a catalog. -/
def renameImage (c : Catalog) (name : String) : Catalog :=
  { c with imageName := name }

/-- The constant of a kind among the items: its whole declaration. -/
def declOfKind (items : List Item) (k : ResourceKind) : Option ConstDecl :=
  (constants items).find? (fun d => kindOf d.symbol == some k)

/-- The value of the constant of a kind among the items. -/
def valueOfKind (items : List Item) (k : ResourceKind) : Option String :=
  (declOfKind items k).map (fun d => d.value)

set_option maxRecDepth 100000

/-- The structured header is the header: rendering it gives the file text. -/
theorem render_header : render header = headerText := by
  decide

/-- Reading the file text gives the structured header. -/
theorem parse_headerText : parse headerText = some header := by
  decide

/-! ## The values of the constants -/

/-- C1: the three constants have the expected catalog identifiers as values:
looked up in the header as read from its text, `ACBundleID` is
"online.wangww.InputSwitcher", `ACColorNameColor` is "Color" and
`ACImageNameImage` is "Image"; the definitions of the same names have these
values; and every name quoted in the doc comment of a constant is the value
of that constant (the comment of `ACBundleID` quotes none). -/
theorem constants_have_expected_values :
    (parse headerText).map
        (fun h => (lookup h "ACBundleID", lookup h "ACColorNameColor",
          lookup h "ACImageNameImage"))
      = some (some "online.wangww.InputSwitcher", some "Color", some "Image")
    ∧ ACBundleID = "online.wangww.InputSwitcher"
    ∧ ACColorNameColor = "Color"
    ∧ ACImageNameImage = "Image"
    ∧ (constants header).map (fun d => (d.symbol, d.value, quotedNames d.doc))
      = [("ACBundleID", ACBundleID, []),
         ("ACColorNameColor", ACColorNameColor, [ACColorNameColor]),
         ("ACImageNameImage", ACImageNameImage, [ACImageNameImage])] := by
  decide

/-- C2: the value of every constant of the table is a non-empty string: each
of `ACBundleID`, `ACColorNameColor`, `ACImageNameImage` has a length above
zero, and so has the value of every constant declared in the header. -/
theorem constants_nonempty :
    0 < ACBundleID.length ∧ 0 < ACColorNameColor.length ∧ 0 < ACImageNameImage.length
    ∧ ACBundleID ≠ "" ∧ ACColorNameColor ≠ "" ∧ ACImageNameImage ≠ ""
    ∧ (constants header).all (fun d => decide (0 < d.value.length)) = true := by
  decide

/-- C3: the header declares three string constants and nothing else: the
names it leaves to an including file are `ACBundleID`, `ACColorNameColor`
and `ACImageNameImage`, no macro stays defined, each constant is an
`NSString`, and there is one constant of each kind (bundle identifier, color
name, image name). -/
theorem surface_is_three_constants :
    surface header = ["ACBundleID", "ACColorNameColor", "ACImageNameImage"]
    ∧ macrosAfter [] header = []
    ∧ (constants header).length = 3
    ∧ (constants header).map (fun d => d.pointee) = ["NSString", "NSString", "NSString"]
    ∧ (constants header).map (fun d => kindOf d.symbol)
      = [some .bundleID, some .colorName, some .imageName]
    ∧ ∀ k : ResourceKind, countKind header k = 1 := by
  refine ⟨by decide, by decide, by decide, by decide, by decide, ?_⟩
  intro k
  cases k <;> decide

/-- C8: the values of the three constants are pairwise distinct, and so are
the values of the constants declared in the header. -/
theorem values_pairwise_distinct :
    ACBundleID ≠ ACColorNameColor ∧ ACBundleID ≠ ACImageNameImage
    ∧ ACColorNameColor ≠ ACImageNameImage
    ∧ (constants header).map (fun d => d.value)
      = [ACBundleID, ACColorNameColor, ACImageNameImage]
    ∧ ((constants header).map (fun d => d.value)).Nodup := by
  decide

/-- C9: the symbol of each resource constant is its kind's leading part
followed by its value: `ACColorNameColor` is `ACColorName` then "Color",
`ACImageNameImage` is `ACImageName` then "Image"; and the three symbols of
the header are pairwise distinct. -/
theorem symbol_is_head_then_value :
    (constants header).map (fun d => d.symbol)
      = ["ACBundleID", "ACColorName" ++ ACColorNameColor, "ACImageName" ++ ACImageNameImage]
    ∧ declColorNameColor.symbol
      = ResourceKind.colorName.symbolHead ++ declColorNameColor.value
    ∧ declImageNameImage.symbol
      = ResourceKind.imageName.symbolHead ++ declImageNameImage.value
    ∧ "ACColorNameColor" = "ACColorName" ++ "Color"
    ∧ "ACImageNameImage" = "ACImageName" ++ "Image"
    ∧ ((constants header).map (fun d => d.symbol)).Nodup := by
  decide

/-! ## Immutability and lookup -/

/-- No declaration of the header lets an attempt through. -/
theorem accepts_header (w : Write) : accepts header w = false := by
  cases w <;>
    simp [accepts, permits, header, constants, declBundleID, declColorNameColor,
      declImageNameImage]

/-- An attempt leaves the header as it is. -/
theorem step_header (w : Write) : step header w = header := by
  simp [step, accepts_header]

/-- A sequence of attempts leaves the header as it is. -/
theorem run_header (ws : List Write) : run header ws = header := by
  induction ws with
  | nil => rfl
  | cons w ws ih =>
      have h : run header (w :: ws) = run (step header w) ws := rfl
      rw [h, step_header, ih]

/-- The attempts are not without effect by definition: on a declaration
written without `const`, an assignment changes the value looked up. -/
theorem rebind_without_const :
    lookup (step [.constant { declColorNameColor with isConst := false }]
      (.rebind "ACColorNameColor" "Other")) "ACColorNameColor" = some "Other" := by
  decide

/-- C4: lookup by symbol succeeds for each of the three symbols and is
stable: after any sequence of attempted changes, `ACBundleID`,
`ACColorNameColor` and `ACImageNameImage` are found, with the values of the
header, and two lookups of a symbol, made at any two moments, return the
same. -/
theorem lookup_succeeds_and_is_stable (ws₁ ws₂ : List Write) :
    lookup (run header ws₁) "ACBundleID" = some ACBundleID
    ∧ lookup (run header ws₁) "ACColorNameColor" = some ACColorNameColor
    ∧ lookup (run header ws₁) "ACImageNameImage" = some ACImageNameImage
    ∧ ∀ sym : String, lookup (run header ws₁) sym = lookup (run header ws₂) sym := by
  rw [run_header, run_header]
  exact ⟨by decide, by decide, by decide, fun _ => rfl⟩

/-- C5: the table is immutable: each constant is declared `static`, `const`
and of class `NSString`; no assignment and no mutation aimed at any name is
accepted; and after any sequence of attempts the header, hence the value
of each of the three constants, is what it was. -/
theorem constants_immutable (ws : List Write) :
    (constants header).map (fun d => (d.symbol, d.isStatic, d.isConst, d.pointee))
      = [("ACBundleID", true, true, "NSString"),
         ("ACColorNameColor", true, true, "NSString"),
         ("ACImageNameImage", true, true, "NSString")]
    ∧ (∀ w : Write, accepts header w = false)
    ∧ run header ws = header
    ∧ (constants (run header ws)).map (fun d => d.value)
      = [ACBundleID, ACColorNameColor, ACImageNameImage] := by
  refine ⟨by decide, accepts_header, run_header ws, ?_⟩
  rw [run_header]
  decide

/-! ## Regeneration -/

/-- The generator, run on the catalog of the build, gives the header. -/
theorem generate_catalog : generate catalog = header := by
  decide

/-- The generator, run on the catalog of the build, gives the file text. -/
theorem render_generate_catalog : render (generate catalog) = headerText := by
  decide

/-- The symbol `ACBundleID` is of the bundle kind. -/
theorem kindOf_bundleID : kindOf ResourceKind.bundleID.symbolHead = some .bundleID := by
  decide

/-- A symbol made of `ACColorName` and a name is of the color kind. -/
theorem kindOf_colorName (n : String) :
    kindOf (ResourceKind.colorName.symbolHead ++ n) = some .colorName := by
  have h1 : ResourceKind.colorName.symbolHead.data
      = ['A', 'C', 'C', 'o', 'l', 'o', 'r', 'N', 'a', 'm', 'e'] := by decide
  have h2 : ResourceKind.bundleID.symbolHead.data
      = ['A', 'C', 'B', 'u', 'n', 'd', 'l', 'e', 'I', 'D'] := by decide
  have hne : ResourceKind.colorName.symbolHead ++ n ≠ ResourceKind.bundleID.symbolHead := by
    intro h
    have := congrArg String.data h
    rw [String.data_append, h1, h2] at this
    simp at this
  unfold kindOf
  rw [if_neg hne, String.data_append, h1]
  simp [List.isPrefixOf]

/-- A symbol made of `ACImageName` and a name is of the image kind. -/
theorem kindOf_imageName (n : String) :
    kindOf (ResourceKind.imageName.symbolHead ++ n) = some .imageName := by
  have h0 : ResourceKind.colorName.symbolHead.data
      = ['A', 'C', 'C', 'o', 'l', 'o', 'r', 'N', 'a', 'm', 'e'] := by decide
  have h1 : ResourceKind.imageName.symbolHead.data
      = ['A', 'C', 'I', 'm', 'a', 'g', 'e', 'N', 'a', 'm', 'e'] := by decide
  have h2 : ResourceKind.bundleID.symbolHead.data
      = ['A', 'C', 'B', 'u', 'n', 'd', 'l', 'e', 'I', 'D'] := by decide
  have hne : ResourceKind.imageName.symbolHead ++ n ≠ ResourceKind.bundleID.symbolHead := by
    intro h
    have := congrArg String.data h
    rw [String.data_append, h1, h2] at this
    simp at this
  unfold kindOf
  rw [if_neg hne, String.data_append, h1, h0]
  simp [List.isPrefixOf]

/-- The constants of a generated header, by kind. -/
theorem declOfKind_generate (c : Catalog) :
    declOfKind (generate c) .bundleID = some (generateBundleID c.bundleID)
    ∧ declOfKind (generate c) .colorName = some (generateColorName c.colorName)
    ∧ declOfKind (generate c) .imageName = some (generateImageName c.imageName) := by
  have k1 : kindOf (generateBundleID c.bundleID).symbol = some .bundleID := kindOf_bundleID
  have k2 : kindOf (generateColorName c.colorName).symbol = some .colorName :=
    kindOf_colorName _
  have k3 : kindOf (generateImageName c.imageName).symbol = some .imageName :=
    kindOf_imageName _
  have e1 : (ResourceKind.bundleID == ResourceKind.colorName) = false := by decide
  have e2 : (ResourceKind.bundleID == ResourceKind.imageName) = false := by decide
  have e3 : (ResourceKind.colorName == ResourceKind.imageName) = false := by decide
  simp [declOfKind, generate, constants, List.find?, k1, k2, k3, e1, e2, e3]

/-- C7: renaming one asset of a catalog and regenerating leaves the other
constants as they were: after a rename of the color, the declarations of the
bundle identifier and of the image, and so their values, are those of before;
after a rename of the image, those of the bundle identifier and of the color
are; the renamed constant has the new name as value. -/
theorem rename_leaves_others (c : Catalog) (n : String) :
    (declOfKind (generate (renameColor c n)) .bundleID = declOfKind (generate c) .bundleID
      ∧ declOfKind (generate (renameColor c n)) .imageName
        = declOfKind (generate c) .imageName
      ∧ valueOfKind (generate (renameColor c n)) .bundleID = some c.bundleID
      ∧ valueOfKind (generate (renameColor c n)) .imageName = some c.imageName
      ∧ valueOfKind (generate (renameColor c n)) .colorName = some n)
    ∧ (declOfKind (generate (renameImage c n)) .bundleID = declOfKind (generate c) .bundleID
      ∧ declOfKind (generate (renameImage c n)) .colorName
        = declOfKind (generate c) .colorName
      ∧ valueOfKind (generate (renameImage c n)) .bundleID = some c.bundleID
      ∧ valueOfKind (generate (renameImage c n)) .colorName = some c.colorName
      ∧ valueOfKind (generate (renameImage c n)) .imageName = some n)
    ∧ valueOfKind (generate c) .bundleID = some c.bundleID
    ∧ valueOfKind (generate c) .colorName = some c.colorName
    ∧ valueOfKind (generate c) .imageName = some c.imageName := by
  obtain ⟨a1, a2, a3⟩ := declOfKind_generate c
  obtain ⟨b1, b2, b3⟩ := declOfKind_generate (renameColor c n)
  obtain ⟨c1, c2, c3⟩ := declOfKind_generate (renameImage c n)
  simp only [valueOfKind, a1, a2, a3, b1, b2, b3, c1, c2, c3]
  simp [renameColor, renameImage, generateBundleID, generateColorName, generateImageName]

end GeneratedAssetSymbols
